import Mathlib

/-!
Shallow embedding of the firestore-batch-updater library.

The embedding models the `BatchUpdater` class (src/core/batch-updater.ts),
its helper functions (src/utils/index.ts) and the logger (src/utils/logger.ts).
The Firestore document store is an external collaborator and is modelled as an
oracle `store : QueryPlan → List Doc` returning the ordered match set of a
query plan (the store is assumed stable for the duration of one invocation,
matching the spec's explicit exclusion of concurrent writers).  The BulkWriter
write channel is modelled by a per-document failure oracle
`fail : String → Bool` together with a completion-order parameter
`reorder : List α → List α` constrained to be a permutation, since completion
notifications arrive in an unspecified order.
-/

namespace FirestoreBatch

/-- Firestore field values, as far as the embedded functions inspect them. -/
inductive FSValue where
  | str (s : String)
  | num (n : Int)
  | boolV (b : Bool)
  | date (iso : String)
  | nullV
deriving DecidableEq, Repr

/-- A document's data: a JS object with string keys (`Record<string, any>`). -/
abbrev DocData := List (String × FSValue)

/-- Key lookup in a JS object: the first binding of the key, if any. -/
def lookupField (r : DocData) (k : String) : Option FSValue :=
  (r.find? (fun p => p.1 == k)).map (fun p => p.2)

/-- `mergeUpdateData` from src/utils/index.ts: the JS object spread
`{...existingData, ...updateData}`.  Keys of `existingData` keep their
position but take the value from `updateData` when present there; keys
occurring only in `updateData` are appended. -/
def mergeUpdateData (existingData updateData : DocData) : DocData :=
  existingData.map (fun p =>
    match lookupField updateData p.1 with
    | some v => (p.1, v)
    | none => p)
  ++ updateData.filter (fun p => (lookupField existingData p.1).isNone)

/-- `getAffectedFields` from src/utils/index.ts: `Object.keys(updateData)`. -/
def getAffectedFields (updateData : DocData) : List String :=
  updateData.map (fun p => p.1)

/-- A candidate mutation payload before validation, covering the JS values
`isValidUpdateData` distinguishes: null, arrays, primitives and objects. -/
inductive Payload where
  | nullP
  | arrayP (items : List FSValue)
  | primP (v : FSValue)
  | objP (fields : DocData)
deriving DecidableEq, Repr

/-- `isValidUpdateData` from src/utils/index.ts: a non-null non-array object
with at least one key. -/
def isValidUpdateData : Payload → Bool
  | .objP fields => !fields.isEmpty
  | _ => false

/-- The object fields of a payload that passed `isValidUpdateData`. -/
def Payload.objFields : Payload → DocData
  | .objP fields => fields
  | _ => []

/-- `ProgressInfo` from src/types.ts. -/
structure ProgressInfo where
  current : Nat
  total : Nat
  percentage : Nat
deriving DecidableEq, Repr

/-- `calculateProgress` from src/utils/index.ts:
`percentage = total === 0 ? 0 : Math.round(current / total * 100)`.
`Math.round` on the non-negative rational `current * 100 / total` is
`⌊(200 * current + total) / (2 * total)⌋`. -/
def calculateProgress (current total : Nat) : ProgressInfo :=
  { current := current
    total := total
    percentage := if total = 0 then 0 else (200 * current + total) / (2 * total) }

/-- `WhereCondition` from src/types.ts; the operator is one of the Firestore
`WhereFilterOp` strings. -/
structure WhereCondition where
  field : String
  op : String
  value : FSValue
deriving DecidableEq, Repr

/-- The query assembled by `BatchUpdater.buildQuery`: the collection plus the
accumulated where conditions.  Filter evaluation itself belongs to the store
collaborator and stays behind the `store` oracle. -/
structure QueryPlan where
  collection : String
  conditions : List WhereCondition
deriving DecidableEq, Repr

/-- The mutable builder state of a `BatchUpdater` instance:
`collectionPath?` and `conditions`. -/
structure BuilderState where
  collectionPath : Option String := none
  conditions : List WhereCondition := []
deriving DecidableEq, Repr

/-- `BatchUpdater.collection`: select a collection and reset the conditions. -/
def BuilderState.collection (st : BuilderState) (path : String) : BuilderState :=
  { st with collectionPath := some path, conditions := [] }

/-- `BatchUpdater.where`: append one condition. -/
def BuilderState.whereCond (st : BuilderState) (field : String) (op : String)
    (value : FSValue) : BuilderState :=
  { st with conditions := st.conditions ++ [⟨field, op, value⟩] }

/-- `BatchUpdater.buildQuery`: the collection reference with every condition
applied in order.  Only reached after `validateSetup`, hence the default. -/
def BuilderState.buildQuery (st : BuilderState) : QueryPlan :=
  { collection := st.collectionPath.getD "", conditions := st.conditions }

/-- A fetched document: id plus data. -/
structure Doc where
  id : String
  data : DocData
deriving DecidableEq, Repr

/-- Observable store interactions of one invocation, in program order:
aggregate count queries, page fetches (with their limit, if any), BulkWriter
session creation, and the per-document writes enqueued on a session. -/
inductive Effect where
  | countQuery (plan : QueryPlan)
  | fetch (plan : QueryPlan) (pageLimit : Option Nat)
  | openBulkWriter
  | enqueueUpdate (docId : String)
  | enqueueSetMerge (docId : String)
  | enqueueCreate (docId : String)
deriving DecidableEq, Repr

/-- Effects that touch the write path (a BulkWriter session or a write). -/
def Effect.isWriteEffect : Effect → Bool
  | .countQuery _ => false
  | .fetch _ _ => false
  | _ => true

/-- The query plan an effect executes against, for read effects. -/
def Effect.queryPlan? : Effect → Option QueryPlan
  | .countQuery plan => some plan
  | .fetch plan _ => some plan
  | _ => none

/-- The mutable counters of one invocation, written from the BulkWriter
completion handlers: `successCount`, `failureCount`, `processedCount`,
`failedDocIds`, `createdIds` (used by `create` only) and the sequence of
`ProgressInfo` values handed to the caller's progress callback. -/
structure ExecState where
  successCount : Nat := 0
  failureCount : Nat := 0
  processedCount : Nat := 0
  failedDocIds : List String := []
  createdIds : List String := []
  progressTrace : List ProgressInfo := []
deriving DecidableEq, Repr

/-- The empty counter state at the start of an invocation. -/
def initExec : ExecState := {}

/-- One BulkWriter completion notification for the document with the given id:
`onWriteResult` (when `fail docId = false`) or `onWriteError` (when it is
`true`).  `pushCreated` selects the `create` variant of the success handler,
which also appends `ref.id` to `createdIds`.  When `onProgress` is set, the
handler forwards `calculateProgress(processedCount, totalCount)` to the
caller's callback. -/
def processCompletion (pushCreated : Bool) (fail : String → Bool)
    (totalCount : Nat) (onProgress : Bool) (s : ExecState) (docId : String) :
    ExecState :=
  if fail docId then
    { s with
      failureCount := s.failureCount + 1
      processedCount := s.processedCount + 1
      failedDocIds := s.failedDocIds ++ [docId]
      progressTrace := s.progressTrace ++
        (if onProgress then [calculateProgress (s.processedCount + 1) totalCount] else []) }
  else
    { s with
      successCount := s.successCount + 1
      processedCount := s.processedCount + 1
      createdIds := if pushCreated then s.createdIds ++ [docId] else s.createdIds
      progressTrace := s.progressTrace ++
        (if onProgress then [calculateProgress (s.processedCount + 1) totalCount] else []) }

/-- The successive pages delivered by the cursor loop of the paginated mode:
`limit(pageSize)` plus `startAfter` the last document of the previous page.
Against a stable store this is successive `take`/`drop` slices of the match
set.  The fuel argument bounds the recursion; `pages` supplies enough. -/
def pagesAux (pageSize : Nat) : Nat → List Doc → List (List Doc)
  | 0, _ => []
  | _ + 1, [] => []
  | fuel + 1, l => l.take pageSize :: pagesAux pageSize fuel (l.drop pageSize)

/-- All pages the paginated loop fetches and processes (the loop stops at an
empty page or a short page). -/
def pages (pageSize : Nat) (l : List Doc) : List (List Doc) :=
  pagesAux pageSize l.length l

/-- The two mutation flavours sharing the batch executor: `update` enqueues
`bulkWriter.update(ref, data)`, `upsert` enqueues
`bulkWriter.set(ref, data, {merge: true})`.  The two methods are otherwise
line-for-line identical in the source. -/
inductive MutationKind where
  | update
  | upsert
deriving DecidableEq, Repr

/-- The enqueue effect each mutation flavour issues per matched document. -/
def enqueueEffect : MutationKind → String → Effect
  | .update, docId => .enqueueUpdate docId
  | .upsert, docId => .enqueueSetMerge docId

/-- Outcome record of `update`/`upsert` (`UpdateResult`/`UpsertResult`):
`failedDocIds` is present only when non-empty. -/
structure MutationOutcome where
  successCount : Nat
  failureCount : Nat
  totalCount : Nat
  failedDocIds : Option (List String) := none
deriving DecidableEq, Repr

/-- The complete observable behaviour of one invocation: the returned value
or thrown error, the store effects in program order, and the progress values
delivered to the caller's callback. -/
instance instDecEqExcept {E A : Type} [DecidableEq E] [DecidableEq A] :
    DecidableEq (Except E A)
  | .error a, .error b =>
    if h : a = b then .isTrue (by rw [h]) else .isFalse (by simp [h])
  | .error _, .ok _ => .isFalse (fun hh => Except.noConfusion hh)
  | .ok _, .error _ => .isFalse (fun hh => Except.noConfusion hh)
  | .ok a, .ok b =>
    if h : a = b then .isTrue (by rw [h]) else .isFalse (by simp [h])

structure RunResult (Out : Type) where
  outcome : Except String Out
  effects : List Effect := []
  progress : List ProgressInfo := []
deriving DecidableEq, Repr

/-- The unbounded branch of `update`/`upsert` (no `batchSize`): one full
fetch, one BulkWriter session over the whole match set. -/
def runUnbounded (kind : MutationKind) (plan : QueryPlan) (onProgress : Bool)
    (matchSet : List Doc) (fail : String → Bool)
    (reorder : List Doc → List Doc) : RunResult MutationOutcome :=
  let totalCount := matchSet.length
  if totalCount = 0 then
    { outcome := .ok { successCount := 0, failureCount := 0, totalCount := 0 }
      effects := [.fetch plan none] }
  else
    let completions := (reorder matchSet).map (fun d => d.id)
    let finalSt := completions.foldl
      (processCompletion false fail totalCount onProgress) initExec
    { outcome := .ok
        { successCount := finalSt.successCount
          failureCount := finalSt.failureCount
          totalCount := totalCount
          failedDocIds :=
            if 0 < finalSt.failedDocIds.length then some finalSt.failedDocIds else none }
      effects := [.fetch plan none, .openBulkWriter] ++
        matchSet.map (fun d => enqueueEffect kind d.id)
      progress := finalSt.progressTrace }

/-- The paginated branch of `update`/`upsert` (`batchSize > 0`): a count
query first, then one fetch plus one BulkWriter session per page, draining
each session before advancing the cursor.  The loop issues one extra, empty
fetch when the page size divides the match count evenly. -/
def runPaginated (kind : MutationKind) (plan : QueryPlan) (pageSize : Nat)
    (onProgress : Bool) (matchSet : List Doc) (fail : String → Bool)
    (reorder : List Doc → List Doc) : RunResult MutationOutcome :=
  let totalCount := matchSet.length
  if totalCount = 0 then
    { outcome := .ok { successCount := 0, failureCount := 0, totalCount := 0 }
      effects := [.countQuery plan] }
  else
    let pgs := pages pageSize matchSet
    let finalSt := pgs.foldl
      (fun s pg => ((reorder pg).map (fun d => d.id)).foldl
        (processCompletion false fail totalCount onProgress) s)
      initExec
    { outcome := .ok
        { successCount := finalSt.successCount
          failureCount := finalSt.failureCount
          totalCount := totalCount
          failedDocIds :=
            if 0 < finalSt.failedDocIds.length then some finalSt.failedDocIds else none }
      effects := [.countQuery plan] ++
        pgs.flatMap (fun pg =>
          Effect.fetch plan (some pageSize) :: Effect.openBulkWriter ::
            pg.map (fun d => enqueueEffect kind d.id)) ++
        (if totalCount % pageSize = 0 then [Effect.fetch plan (some pageSize)] else [])
      progress := finalSt.progressTrace }

/-- `BatchUpdater.update` and `BatchUpdater.upsert`: `validateSetup`, payload
validation, then the paginated branch when `options.batchSize` is set and
positive (`options.batchSize && options.batchSize > 0`), the unbounded branch
otherwise. -/
def runBatchMutation (kind : MutationKind) (st : BuilderState)
    (payload : Payload) (batchSize : Option Int) (onProgress : Bool)
    (store : QueryPlan → List Doc) (fail : String → Bool)
    (reorder : List Doc → List Doc) : RunResult MutationOutcome :=
  match st.collectionPath with
  | none =>
    { outcome := .error "Collection path is required. Call .collection() first." }
  | some _ =>
    if isValidUpdateData payload = false then
      { outcome := .error "Update data must be a non-empty object" }
    else
      let plan := st.buildQuery
      let matchSet := store plan
      match batchSize with
      | some n =>
        if 0 < n then
          runPaginated kind plan n.toNat onProgress matchSet fail reorder
        else
          runUnbounded kind plan onProgress matchSet fail reorder
      | none => runUnbounded kind plan onProgress matchSet fail reorder

/-- `CreateDocumentInput` from src/types.ts: optional explicit id plus data. -/
structure CreateDocumentInput where
  id : Option String := none
  data : Payload
deriving DecidableEq, Repr

/-- `CreateResult` from src/types.ts. -/
structure CreateOutcome where
  successCount : Nat
  failureCount : Nat
  totalCount : Nat
  createdIds : List String
  failedDocIds : Option (List String) := none
deriving DecidableEq, Repr

/-- The document reference ids `create` enqueues, in input order:
`doc.id ? collection.doc(doc.id) : collection.doc()`.  Auto-generated ids are
drawn from the supply `genIds` in order. -/
def resolveIds (genIds : Nat → String) : Nat → List CreateDocumentInput → List String
  | _, [] => []
  | k, d :: rest =>
    match d.id with
    | some i => i :: resolveIds genIds k rest
    | none => genIds k :: resolveIds genIds (k + 1) rest

/-- `BatchUpdater.create`: validation of the setup, the array and every
document's data, then one BulkWriter session over all inputs.  The success
handler appends `ref.id` to `createdIds` in completion order. -/
def runCreate (st : BuilderState) (documents : List CreateDocumentInput)
    (onProgress : Bool) (genIds : Nat → String) (fail : String → Bool)
    (reorderIds : List String → List String) : RunResult CreateOutcome :=
  match st.collectionPath with
  | none =>
    { outcome := .error "Collection path is required. Call .collection() first." }
  | some _ =>
    if documents.isEmpty then
      { outcome := .error "Documents array must be non-empty" }
    else if documents.any (fun d => !isValidUpdateData d.data) then
      { outcome := .error "Each document must have valid data" }
    else
      let totalCount := documents.length
      let ids := resolveIds genIds 0 documents
      let finalSt := (reorderIds ids).foldl
        (processCompletion true fail totalCount onProgress) initExec
      { outcome := .ok
          { successCount := finalSt.successCount
            failureCount := finalSt.failureCount
            totalCount := totalCount
            createdIds := finalSt.createdIds
            failedDocIds :=
              if 0 < finalSt.failedDocIds.length then some finalSt.failedDocIds else none }
        effects := [.openBulkWriter] ++ ids.map Effect.enqueueCreate
        progress := finalSt.progressTrace }

/-- `DocumentSnapshot` from src/types.ts: one preview sample. -/
structure SampleSnapshot where
  id : String
  before : DocData
  after : DocData
deriving DecidableEq, Repr

/-- `PreviewResult` from src/types.ts. -/
structure PreviewOutcome where
  affectedCount : Nat
  samples : List SampleSnapshot
  affectedFields : List String
deriving DecidableEq, Repr

/-- `BatchUpdater.preview`: validation, one full fetch, then up to 10 samples
whose `after` is the local `mergeUpdateData` of the fetched `before` with the
payload.  No BulkWriter session and no write is issued. -/
def runPreview (st : BuilderState) (payload : Payload)
    (store : QueryPlan → List Doc) : RunResult PreviewOutcome :=
  match st.collectionPath with
  | none =>
    { outcome := .error "Collection path is required. Call .collection() first." }
  | some _ =>
    if isValidUpdateData payload = false then
      { outcome := .error "Update data must be a non-empty object" }
    else
      let updateData := payload.objFields
      let plan := st.buildQuery
      let matchSet := store plan
      { outcome := .ok
          { affectedCount := matchSet.length
            samples := (matchSet.take 10).map (fun d =>
              { id := d.id
                before := d.data
                after := mergeUpdateData d.data updateData })
            affectedFields := getAffectedFields updateData }
        effects := [.fetch plan none] }

/-! ### Logger (src/utils/logger.ts and src/types.ts) -/

/-- `LogEntry.status` values. -/
inductive LogStatus where
  | success
  | failure
deriving DecidableEq, Repr

/-- `LogEntry` from src/types.ts. -/
structure LogEntry where
  timestamp : String
  documentId : String
  status : LogStatus
  error : Option String := none
deriving DecidableEq, Repr

/-- The summary block of an `OperationLog`. -/
structure LogSummary where
  totalCount : Nat
  successCount : Nat
  failureCount : Nat
deriving DecidableEq, Repr

/-- `OperationLog` from src/types.ts. -/
structure OperationLog where
  operation : String
  collection : String
  startedAt : String
  completedAt : String
  conditions : Option (List WhereCondition) := none
  updateData : Option DocData := none
  summary : LogSummary
  entries : List LogEntry
deriving DecidableEq, Repr

/-- The summary `createLogCollector`'s `getLog` computes from the collected
entries. -/
def collectorSummary (entries : List LogEntry) : LogSummary :=
  { totalCount := entries.length
    successCount := (entries.filter (fun e => e.status == LogStatus.success)).length
    failureCount := (entries.filter (fun e => e.status == LogStatus.failure)).length }

/-- The separator `"=".repeat(60)`. -/
def separatorLine : String := String.mk (List.replicate 60 '=')

/-- `.toUpperCase()`, character by character. -/
def toUpperCase (s : String) : String := String.mk (s.data.map Char.toUpper)

/-- `.replace(/\n/g, "\n  ")` at character level. -/
def indentAfterNewlines : List Char → List Char
  | [] => []
  | c :: rest =>
    if c = '\n' then '\n' :: ' ' :: ' ' :: indentAfterNewlines rest
    else c :: indentAfterNewlines rest

/-- `.replace(/\n/g, "\n  ")` on strings. -/
def replaceNewlineIndent (s : String) : String := String.mk (indentAfterNewlines s.data)

/-- `formatValue` from src/utils/logger.ts: dates as ISO strings, strings
quoted, everything else via `String(value)`. -/
def formatValue : FSValue → String
  | .date iso => iso
  | .str s => "\x22" ++ s ++ "\x22"
  | .num n => toString n
  | .boolV b => if b then "true" else "false"
  | .nullV => "null"

/-- One JSON scalar as `JSON.stringify` renders it. -/
def jsonValue : FSValue → String
  | .str s => "\x22" ++ s ++ "\x22"
  | .num n => toString n
  | .boolV b => if b then "true" else "false"
  | .nullV => "null"
  | .date iso => "\x22" ++ iso ++ "\x22"

/-- `JSON.stringify(obj, null, 2)` on a flat object. -/
def jsonStringifyPretty (r : DocData) : String :=
  if r.isEmpty then "\x7b\x7d"
  else
    "\x7b\n" ++ String.intercalate ",\n"
      (r.map (fun p => "  \x22" ++ p.1 ++ "\x22: " ++ jsonValue p.2)) ++ "\n\x7d"

/-- Header block of the rendered log. -/
def headerBlock (log : OperationLog) : List String :=
  [separatorLine, "FIRESTORE BATCH OPERATION LOG", separatorLine, "",
   "Operation: " ++ toUpperCase log.operation,
   "Collection: " ++ log.collection,
   "Started: " ++ log.startedAt,
   "Completed: " ++ log.completedAt, ""]

/-- Conditions block: `if (log.conditions && log.conditions.length > 0)`. -/
def conditionsBlock : Option (List WhereCondition) → List String
  | some cs =>
    if cs.isEmpty then []
    else ("Conditions:" ::
      cs.map (fun c => "  - " ++ c.field ++ " " ++ c.op ++ " " ++ formatValue c.value)) ++ [""]
  | none => []

/-- Update-data block: `if (log.updateData)`. -/
def updateDataBlock : Option DocData → List String
  | some r => ["Update Data:", "  " ++ replaceNewlineIndent (jsonStringifyPretty r), ""]
  | none => []

/-- Summary block with the Total/Success/Failure counters. -/
def summaryBlock (s : LogSummary) : List String :=
  [separatorLine, "SUMMARY", separatorLine,
   "Total: " ++ toString s.totalCount,
   "Success: " ++ toString s.successCount,
   "Failure: " ++ toString s.failureCount, ""]

/-- The `timestamp [SUCCESS|FAILURE] documentId` line of one entry. -/
def entryLine (e : LogEntry) : String :=
  e.timestamp ++ " " ++
    (if e.status = LogStatus.success then "[SUCCESS]" else "[FAILURE]") ++ " " ++
    e.documentId

/-- The lines of one entry: its entry line plus, for a truthy error string,
the indented error line (`if (entry.error)` skips both `undefined` and `""`). -/
def entryLines (e : LogEntry) : List String :=
  entryLine e ::
    (match e.error with
     | some err => if err.isEmpty then [] else ["  Error: " ++ err]
     | none => [])

/-- Details block: present only when entries exist. -/
def detailsBlock (entries : List LogEntry) : List String :=
  if entries.isEmpty then []
  else [separatorLine, "DETAILS", separatorLine, ""] ++ entries.flatMap entryLines

/-- Footer block. -/
def footerBlock : List String := ["", separatorLine, "END OF LOG", separatorLine]

/-- `formatOperationLog` from src/utils/logger.ts, as its list of lines. -/
def formatOperationLogLines (log : OperationLog) : List String :=
  headerBlock log ++ conditionsBlock log.conditions ++
    updateDataBlock log.updateData ++ summaryBlock log.summary ++
    detailsBlock log.entries ++ footerBlock

/-- `formatOperationLog`: the lines joined with newlines. -/
def formatOperationLog (log : OperationLog) : String :=
  String.intercalate "\n" (formatOperationLogLines log)

/-! ### Specification-side predicates and concrete fixtures -/

/-- The progress-callback contract: percentages non-decreasing across
successive invocations, the final invocation (when the planned total is
positive) reporting `current = total` at 100 percent, and no invocation at
all for a zero total. -/
def ProgressOk (P : List ProgressInfo) (T : Nat) : Prop :=
  (∀ i, (h : i + 1 < P.length) →
    (P.get (Fin.mk i (Nat.lt_of_succ_lt h))).percentage ≤
      (P.get (Fin.mk (i + 1) h)).percentage) ∧
  (0 < T → P.getLast? = some { current := T, total := T, percentage := 100 }) ∧
  (T = 0 → P = [])

/-- A configured builder for concrete evaluations. -/
def stDemo : BuilderState := { collectionPath := some "users", conditions := [] }

/-- A concrete valid patch. -/
def payDemo : Payload := .objP [("status", FSValue.str "archived")]

/-- Five concrete documents. -/
def docsDemo : List Doc :=
  [{ id := "d1", data := [("status", FSValue.str "active")] },
   { id := "d2", data := [("status", FSValue.str "active")] },
   { id := "d3", data := [] },
   { id := "d4", data := [] },
   { id := "d5", data := [] }]

/-- A store answering every plan with the five demo documents. -/
def storeDemo : QueryPlan → List Doc := fun _ => docsDemo

/-- A store with no matching documents. -/
def storeEmpty : QueryPlan → List Doc := fun _ => []

/-- A channel failing exactly document d2. -/
def failDemo : String → Bool := fun i => i == "d2"

/-- Two create inputs with explicit ids a and b. -/
def createDocsAB : List CreateDocumentInput :=
  [{ id := some "a", data := payDemo }, { id := some "b", data := payDemo }]

/-- One explicit-id and one auto-id create input. -/
def createDocsXAuto : List CreateDocumentInput :=
  [{ id := some "x1", data := payDemo }, { id := none, data := payDemo }]

/-- A deterministic id supply for auto-generated document ids. -/
def genDemo : Nat → String := fun k => "auto" ++ Nat.repr k

/-- A successful demo log entry. -/
def entryDemo1 : LogEntry :=
  { timestamp := "t1", documentId := "doc1", status := .success }

/-- A failed demo log entry carrying an error message. -/
def entryDemo2 : LogEntry :=
  { timestamp := "t2", documentId := "doc2", status := .failure, error := some "boom" }

/-- A two-entry demo operation log with a collector-consistent summary. -/
def logDemo : OperationLog :=
  { operation := "update", collection := "users", startedAt := "t0", completedAt := "t3",
    conditions := none, updateData := none,
    summary := collectorSummary [entryDemo1, entryDemo2],
    entries := [entryDemo1, entryDemo2] }

/-! ### Helper lemmas -/

theorem countP_not_add {α : Type} (l : List α) (p : α → Bool) :
    l.countP (fun i => !p i) + l.countP (fun i => p i) = l.length := by
  induction l with
  | nil => simp
  | cons a t ih =>
    by_cases h : p a <;>
      simp [List.countP_cons, h] <;> omega

theorem find?_map_keyPreserving (f : (String × FSValue) → (String × FSValue))
    (hf : ∀ p, (f p).1 = p.1) (l : DocData) (k : String) :
    (l.map f).find? (fun p => p.1 == k) = (l.find? (fun p => p.1 == k)).map f := by
  rw [List.find?_map]
  have hpred : ((fun p : String × FSValue => p.1 == k) ∘ f) =
      (fun p : String × FSValue => p.1 == k) := by
    funext p
    simp [Function.comp, hf p]
  rw [hpred]

theorem find?_filter_of_imp (l : List (String × FSValue))
    (q g : (String × FSValue) → Bool) (h : ∀ x, q x = true → g x = true) :
    (l.filter g).find? q = l.find? q := by
  induction l with
  | nil => simp
  | cons a t ih =>
    by_cases hq : q a = true
    · rw [List.filter_cons_of_pos (h a hq), List.find?_cons_of_pos _ hq,
        List.find?_cons_of_pos _ hq]
    · by_cases hg : g a = true
      · rw [List.filter_cons_of_pos hg, List.find?_cons_of_neg _ hq,
          List.find?_cons_of_neg _ hq, ih]
      · rw [List.filter_cons_of_neg (by simpa using hg),
          List.find?_cons_of_neg _ hq, ih]

theorem lookupField_append (a b : DocData) (k : String) :
    lookupField (a ++ b) k = (lookupField a k).or (lookupField b k) := by
  unfold lookupField
  rw [List.find?_append]
  cases a.find? (fun p => p.1 == k) <;> simp

/-- The semantic content of the JS spread in `mergeUpdateData`: keys of the
update object win; every other key of the existing object keeps its value. -/
theorem lookupField_mergeUpdateData (e u : DocData) (k : String) :
    lookupField (mergeUpdateData e u) k =
      (lookupField u k).or (lookupField e k) := by
  have hkey : ∀ p : String × FSValue,
      ((fun p : String × FSValue => match lookupField u p.1 with
        | some v => (p.1, v)
        | none => p) p).1 = p.1 := by
    intro p
    rcases h : lookupField u p.1 with _ | v <;> simp [h]
  rw [mergeUpdateData, lookupField_append]
  have hA : lookupField (e.map (fun p : String × FSValue =>
      match lookupField u p.1 with
      | some v => (p.1, v)
      | none => p)) k =
      ((e.find? (fun p => p.1 == k)).map (fun p : String × FSValue =>
        match lookupField u p.1 with
        | some v => (p.1, v)
        | none => p)).map (fun p => p.2) := by
    show ((e.map (fun p : String × FSValue =>
        match lookupField u p.1 with
        | some v => (p.1, v)
        | none => p)).find? (fun p : String × FSValue => p.1 == k)).map
        (fun p : String × FSValue => p.2) =
      ((e.find? (fun p : String × FSValue => p.1 == k)).map
        (fun p : String × FSValue =>
          match lookupField u p.1 with
          | some v => (p.1, v)
          | none => p)).map (fun p : String × FSValue => p.2)
    rw [find?_map_keyPreserving _ hkey]
  rw [hA]
  cases he : e.find? (fun p => p.1 == k) with
  | some p =>
    have hp1 : p.1 = k := by simpa using List.find?_some he
    have helk : lookupField e k = some p.2 := by
      show (e.find? (fun p => p.1 == k)).map (fun p => p.2) = some p.2
      rw [he]
      rfl
    rw [helk]
    rcases hu : lookupField u k with _ | v
    · simp [hp1, hu]
    · simp [hp1, hu]
  | none =>
    have helk : lookupField e k = none := by
      show (e.find? (fun p => p.1 == k)).map (fun p => p.2) = none
      rw [he]
      rfl
    rw [helk]
    have hB : lookupField (u.filter
        (fun p => (lookupField e p.1).isNone)) k = lookupField u k := by
      show ((u.filter (fun p => (lookupField e p.1).isNone)).find?
          (fun p => p.1 == k)).map (fun p => p.2) =
        (u.find? (fun p => p.1 == k)).map (fun p => p.2)
      rw [find?_filter_of_imp]
      intro x hx
      have hx1 : x.1 = k := by simpa using hx
      rw [hx1, helk]
      rfl
    rw [hB]
    cases lookupField u k <;> simp

/-- A paginated traversal with a positive page size visits exactly the match
set: the concatenation of the pages is the original list. -/
theorem pagesAux_flatten (pageSize : Nat) (hN : 0 < pageSize) :
    ∀ fuel l, l.length ≤ fuel → (pagesAux pageSize fuel l).flatten = l := by
  intro fuel
  induction fuel with
  | zero =>
    intro l hl
    have : l = [] := List.length_eq_zero.mp (by omega)
    subst this
    simp [pagesAux]
  | succ fuel ih =>
    intro l hl
    cases l with
    | nil => simp [pagesAux]
    | cons a t =>
      have hlen : t.length + 1 ≤ fuel + 1 := by simpa using hl
      show ((a :: t).take pageSize ::
        pagesAux pageSize fuel ((a :: t).drop pageSize)).flatten = a :: t
      rw [List.flatten_cons,
        ih _ (by simp only [List.length_drop, List.length_cons]; omega)]
      exact List.take_append_drop ..

theorem pages_flatten (pageSize : Nat) (hN : 0 < pageSize) (l : List Doc) :
    (pages pageSize l).flatten = l :=
  pagesAux_flatten pageSize hN l.length l le_rfl

/-- Closed form of a fold of BulkWriter completion notifications over the
counter state: counts, failed ids, created ids and the emitted progress
sequence, each as a function of the completion list. -/
theorem foldl_processCompletion (pushCreated onProgress : Bool)
    (fail : String → Bool) (total : Nat) (l : List String) (s : ExecState) :
    l.foldl (processCompletion pushCreated fail total onProgress) s =
      { successCount := s.successCount + l.countP (fun i => !fail i)
        failureCount := s.failureCount + l.countP (fun i => fail i)
        processedCount := s.processedCount + l.length
        failedDocIds := s.failedDocIds ++ l.filter (fun i => fail i)
        createdIds := s.createdIds ++
          (if pushCreated then l.filter (fun i => !fail i) else [])
        progressTrace := s.progressTrace ++
          (if onProgress then (List.range l.length).map
            (fun j => calculateProgress (s.processedCount + j + 1) total) else []) } := by
  induction l using List.reverseRecOn with
  | nil => simp
  | append_singleton t a ih =>
    rw [List.foldl_append, ih]
    simp only [List.foldl_cons, List.foldl_nil, processCompletion]
    by_cases hf : fail a <;>
      cases onProgress <;> cases pushCreated <;>
        simp [hf, List.countP_append, List.filter_append, List.range_succ,
          List.countP_cons, List.filter_cons, List.map_append, List.append_assoc,
          Nat.add_assoc]

/-- The nested per-page folds of the paginated loop equal one fold over the
concatenated completion lists of all pages. -/
theorem nested_foldl_eq (pushCreated onProgress : Bool) (fail : String → Bool)
    (total : Nat) (reorder : List Doc → List Doc) (pgs : List (List Doc))
    (s : ExecState) :
    pgs.foldl (fun s pg => ((reorder pg).map (fun d => d.id)).foldl
      (processCompletion pushCreated fail total onProgress) s) s =
    ((pgs.map (fun pg => (reorder pg).map (fun d => d.id))).flatten).foldl
      (processCompletion pushCreated fail total onProgress) s := by
  rw [List.foldl_flatten, List.foldl_map]

/-- Joining perm-related images pagewise preserves permutation. -/
theorem flatten_map_perm_congr {α β : Type} (f g : List α → List β)
    (L : List (List α)) (h : ∀ x, (f x).Perm (g x)) :
    ((L.map f).flatten).Perm ((L.map g).flatten) := by
  induction L with
  | nil => simp
  | cons a t ih =>
    simp only [List.map_cons, List.flatten_cons]
    exact (h a).append ih

/-- The percentage computed by `calculateProgress` is monotone in `current`. -/
theorem calculateProgress_percentage_mono (c c' t : Nat) (h : c ≤ c') :
    (calculateProgress c t).percentage ≤ (calculateProgress c' t).percentage := by
  unfold calculateProgress
  by_cases ht : t = 0
  · simp [ht]
  · simp only [ht, if_false]
    exact Nat.div_le_div_right (by omega)

/-- At `current = total > 0` the tracker reports exactly 100 percent. -/
theorem calculateProgress_full (t : Nat) (ht : 0 < t) :
    calculateProgress t t = { current := t, total := t, percentage := 100 } := by
  unfold calculateProgress
  have ht0 : t ≠ 0 := by omega
  simp only [ht0, if_false]
  congr 1
  exact Nat.div_eq_of_lt_le (by omega) (by omega)

/-- Adjacent monotonicity of the canonical progress trace. -/
theorem progress_list_shape_ok (T : Nat) :
    ProgressOk ((List.range T).map (fun j => calculateProgress (j + 1) T)) T := by
  refine ⟨?_, ?_, ?_⟩
  · intro i h
    have hiT : i + 1 < T := by simpa using h
    simp only [List.get_eq_getElem, List.getElem_map, List.getElem_range]
    exact calculateProgress_percentage_mono _ _ _ (by omega)
  · intro hT
    obtain ⟨k, rfl⟩ : ∃ k, T = k + 1 := ⟨T - 1, by omega⟩
    rw [List.getLast?_map]
    simp only [List.range_succ, List.getLast?_concat]
    simp [calculateProgress_full _ hT]
  · intro hT
    subst hT
    simp

/-- Mode-independent success count over a match set. -/
def succCountOf (fail : String → Bool) (ms : List Doc) : Nat :=
  ms.countP (fun d => !fail d.id)

/-- Mode-independent failure count over a match set. -/
def failCountOf (fail : String → Bool) (ms : List Doc) : Nat :=
  ms.countP (fun d => fail d.id)

/-- Mode-independent failed-id list over a match set, in match order. -/
def failedIdsOf (fail : String → Bool) (ms : List Doc) : List String :=
  (ms.filter (fun d => fail d.id)).map (fun d => d.id)

theorem pagedCompletions_countP (reorder : List Doc → List Doc)
    (hre : ∀ l, (reorder l).Perm l) (pageSize : Nat) (hps : 0 < pageSize)
    (ms : List Doc) (p : String → Bool) :
    (((pages pageSize ms).map (fun pg => (reorder pg).map (fun d => d.id))).flatten).countP p
      = ms.countP (fun d => p d.id) := by
  rw [List.countP_flatten, List.map_map]
  have hfun : (List.countP p ∘ fun pg => (reorder pg).map (fun d => d.id)) =
      fun pg : List Doc => pg.countP (fun d => p d.id) := by
    funext pg
    show ((reorder pg).map (fun d => d.id)).countP p = _
    rw [List.countP_map]
    exact (hre pg).countP_eq _
  rw [hfun, ← List.countP_flatten, pages_flatten _ hps]

theorem pagedCompletions_length (reorder : List Doc → List Doc)
    (hre : ∀ l, (reorder l).Perm l) (pageSize : Nat) (hps : 0 < pageSize)
    (ms : List Doc) :
    (((pages pageSize ms).map (fun pg => (reorder pg).map (fun d => d.id))).flatten).length
      = ms.length := by
  have h1 := pagedCompletions_countP reorder hre pageSize hps ms (fun _ => true)
  simpa using h1

theorem pagedCompletions_filter_perm (reorder : List Doc → List Doc)
    (hre : ∀ l, (reorder l).Perm l) (pageSize : Nat) (hps : 0 < pageSize)
    (ms : List Doc) (p : String → Bool) :
    ((((pages pageSize ms).map (fun pg => (reorder pg).map (fun d => d.id))).flatten).filter p).Perm
      ((ms.filter (fun d => p d.id)).map (fun d => d.id)) := by
  rw [List.filter_flatten, List.map_map]
  have h1 : ∀ pg : List Doc,
      ((List.filter p ∘ fun pg => (reorder pg).map (fun d => d.id)) pg).Perm
        ((fun pg : List Doc => (pg.filter (fun d => p d.id)).map (fun d => d.id)) pg) := by
    intro pg
    show (((reorder pg).map (fun d => d.id)).filter p).Perm _
    rw [List.filter_map]
    exact ((hre pg).filter _).map _
  refine (flatten_map_perm_congr _ _ _ h1).trans ?_
  have h2 : (fun pg : List Doc => (pg.filter (fun d => p d.id)).map (fun d => d.id)) =
      (List.map (fun d : Doc => d.id)) ∘ (List.filter (fun d => p d.id)) := rfl
  rw [h2, ← List.map_map, ← List.map_flatten, ← List.filter_flatten,
    pages_flatten _ hps]

theorem failedIdsOf_length (fail : String → Bool) (ms : List Doc) :
    (failedIdsOf fail ms).length = failCountOf fail ms := by
  unfold failedIdsOf failCountOf
  rw [List.length_map, ← List.countP_eq_length_filter]

/-- Case analysis on the `failedDocIds` field assembled by the result
assembler: present exactly when non-empty. -/
theorem getD_ite_some_perm (X C : List String) (hperm : X.Perm C) :
    (((if 0 < X.length then some X else none).getD []).Perm C) ∧
    ((if 0 < X.length then some X else none) = none ↔ C.length = 0) := by
  have hl := hperm.length_eq
  by_cases h : 0 < X.length
  · refine ⟨by simpa [h] using hperm, ?_, ?_⟩
    · intro hc
      simp [h] at hc
    · intro hc
      exfalso
      omega
  · have hX : X = [] := List.length_eq_zero.mp (by omega)
    subst hX
    have hC : C = [] := List.length_eq_zero.mp (by simp at hl; omega)
    subst hC
    simp

/-- Aggregate outcome and progress trace of the unbounded branch. -/
theorem runUnbounded_ok_spec (kind : MutationKind) (plan : QueryPlan)
    (onProgress : Bool) (ms : List Doc) (fail : String → Bool)
    (reorder : List Doc → List Doc) (hre : ∀ l, (reorder l).Perm l) :
    ∃ out, (runUnbounded kind plan onProgress ms fail reorder).outcome = .ok out ∧
      out.successCount = succCountOf fail ms ∧
      out.failureCount = failCountOf fail ms ∧
      out.totalCount = ms.length ∧
      (out.failedDocIds.getD []).Perm (failedIdsOf fail ms) ∧
      (out.failedDocIds = none ↔ failCountOf fail ms = 0) ∧
      (runUnbounded kind plan onProgress ms fail reorder).progress =
        (if onProgress then (List.range ms.length).map
          (fun j => calculateProgress (j + 1) ms.length) else []) := by
  by_cases hms : ms.length = 0
  · have hnil : ms = [] := List.length_eq_zero.mp hms
    subst hnil
    refine ⟨_, rfl, ?_⟩
    simp [runUnbounded, succCountOf, failCountOf, failedIdsOf]
  · have hlen : ((reorder ms).map (fun d => d.id)).length = ms.length := by
      rw [List.length_map]
      exact (hre ms).length_eq
    have hperm : ((initExec.failedDocIds ++
        ((reorder ms).map (fun d => d.id)).filter (fun i => fail i)) :
          List String).Perm (failedIdsOf fail ms) := by
      simp only [initExec, List.nil_append]
      rw [List.filter_map]
      exact ((hre ms).filter _).map _
    have hmain := getD_ite_some_perm _ _ hperm
    unfold runUnbounded
    simp only [hms, if_false]
    rw [foldl_processCompletion]
    refine ⟨_, rfl, ?_, ?_, rfl, hmain.1, ?_, ?_⟩
    · show initExec.successCount + _ = _
      simp only [initExec, Nat.zero_add]
      rw [List.countP_map, (hre ms).countP_eq]
      rfl
    · show initExec.failureCount + _ = _
      simp only [initExec, Nat.zero_add]
      rw [List.countP_map, (hre ms).countP_eq]
      rfl
    · rw [hmain.2, failedIdsOf_length]
    · show initExec.progressTrace ++ _ = _
      simp only [initExec, List.nil_append, hlen]
      cases onProgress <;> simp

/-- Aggregate outcome and progress trace of the paginated branch. -/
theorem runPaginated_ok_spec (kind : MutationKind) (plan : QueryPlan)
    (pageSize : Nat) (hps : 0 < pageSize) (onProgress : Bool) (ms : List Doc)
    (fail : String → Bool) (reorder : List Doc → List Doc)
    (hre : ∀ l, (reorder l).Perm l) :
    ∃ out, (runPaginated kind plan pageSize onProgress ms fail reorder).outcome = .ok out ∧
      out.successCount = succCountOf fail ms ∧
      out.failureCount = failCountOf fail ms ∧
      out.totalCount = ms.length ∧
      (out.failedDocIds.getD []).Perm (failedIdsOf fail ms) ∧
      (out.failedDocIds = none ↔ failCountOf fail ms = 0) ∧
      (runPaginated kind plan pageSize onProgress ms fail reorder).progress =
        (if onProgress then (List.range ms.length).map
          (fun j => calculateProgress (j + 1) ms.length) else []) := by
  by_cases hms : ms.length = 0
  · have hnil : ms = [] := List.length_eq_zero.mp hms
    subst hnil
    refine ⟨_, rfl, ?_⟩
    simp [runPaginated, succCountOf, failCountOf, failedIdsOf]
  · have hlen := pagedCompletions_length reorder hre pageSize hps ms
    have hperm : ((initExec.failedDocIds ++
        (((pages pageSize ms).map (fun pg => (reorder pg).map (fun d => d.id))).flatten).filter
          (fun i => fail i)) : List String).Perm (failedIdsOf fail ms) := by
      simp only [initExec, List.nil_append]
      exact pagedCompletions_filter_perm reorder hre pageSize hps ms _
    have hmain := getD_ite_some_perm _ _ hperm
    unfold runPaginated
    simp only [hms, if_false]
    rw [nested_foldl_eq, foldl_processCompletion]
    refine ⟨_, rfl, ?_, ?_, rfl, hmain.1, ?_, ?_⟩
    · show initExec.successCount + _ = _
      simp only [initExec, Nat.zero_add]
      rw [pagedCompletions_countP reorder hre pageSize hps ms]
      rfl
    · show initExec.failureCount + _ = _
      simp only [initExec, Nat.zero_add]
      rw [pagedCompletions_countP reorder hre pageSize hps ms]
      rfl
    · rw [hmain.2, failedIdsOf_length]
    · show initExec.progressTrace ++ _ = _
      simp only [initExec, List.nil_append, hlen]
      cases onProgress <;> simp

/-- Behaviour of `update`/`upsert` after a successful validation, in either
mode. -/
theorem runBatchMutation_ok_spec (kind : MutationKind) (st : BuilderState)
    (payload : Payload) (batchSize : Option Int) (onProgress : Bool)
    (store : QueryPlan → List Doc) (fail : String → Bool)
    (reorder : List Doc → List Doc) (p : String)
    (hcol : st.collectionPath = some p)
    (hvalid : isValidUpdateData payload = true)
    (hre : ∀ l, (reorder l).Perm l) :
    ∃ out, (runBatchMutation kind st payload batchSize onProgress store fail reorder).outcome
        = .ok out ∧
      out.successCount = succCountOf fail (store st.buildQuery) ∧
      out.failureCount = failCountOf fail (store st.buildQuery) ∧
      out.totalCount = (store st.buildQuery).length ∧
      (out.failedDocIds.getD []).Perm (failedIdsOf fail (store st.buildQuery)) ∧
      (out.failedDocIds = none ↔ failCountOf fail (store st.buildQuery) = 0) ∧
      (runBatchMutation kind st payload batchSize onProgress store fail reorder).progress =
        (if onProgress then (List.range (store st.buildQuery).length).map
          (fun j => calculateProgress (j + 1) (store st.buildQuery).length) else []) := by
  unfold runBatchMutation
  rw [hcol]
  simp only [hvalid]
  match batchSize with
  | none =>
    exact runUnbounded_ok_spec kind st.buildQuery onProgress (store st.buildQuery) fail reorder hre
  | some n =>
    by_cases hn : 0 < n
    · simp only [hn, if_true]
      exact runPaginated_ok_spec kind st.buildQuery n.toNat (by omega) onProgress
        (store st.buildQuery) fail reorder hre
    · simp only [hn, if_false]
      exact runUnbounded_ok_spec kind st.buildQuery onProgress (store st.buildQuery) fail reorder hre

theorem resolveIds_length (genIds : Nat → String) :
    ∀ k docs, (resolveIds genIds k docs).length = docs.length := by
  intro k docs
  induction docs generalizing k with
  | nil => rfl
  | cons d rest ih =>
    cases hd : d.id <;> simp [resolveIds, hd, ih]

/-- Behaviour of `create` after a successful validation. -/
theorem runCreate_ok_spec (st : BuilderState) (docs : List CreateDocumentInput)
    (onProgress : Bool) (genIds : Nat → String) (fail : String → Bool)
    (reorderIds : List String → List String) (p : String)
    (hcol : st.collectionPath = some p) (hne : docs ≠ [])
    (hvalid : ∀ d ∈ docs, isValidUpdateData d.data = true)
    (hre : ∀ l, (reorderIds l).Perm l) :
    ∃ out, (runCreate st docs onProgress genIds fail reorderIds).outcome = .ok out ∧
      out.successCount = (resolveIds genIds 0 docs).countP (fun i => !fail i) ∧
      out.failureCount = (resolveIds genIds 0 docs).countP (fun i => fail i) ∧
      out.totalCount = docs.length ∧
      out.createdIds = (reorderIds (resolveIds genIds 0 docs)).filter (fun i => !fail i) ∧
      out.createdIds.Perm ((resolveIds genIds 0 docs).filter (fun i => !fail i)) ∧
      (out.failedDocIds.getD []).Perm ((resolveIds genIds 0 docs).filter (fun i => fail i)) ∧
      (out.failedDocIds = none ↔ (resolveIds genIds 0 docs).countP (fun i => fail i) = 0) ∧
      (runCreate st docs onProgress genIds fail reorderIds).progress =
        (if onProgress then (List.range docs.length).map
          (fun j => calculateProgress (j + 1) docs.length) else []) := by
  have hie : docs.isEmpty = false := by
    cases docs with
    | nil => exact absurd rfl hne
    | cons d rest => rfl
  have hany : docs.any (fun d => !isValidUpdateData d.data) = false := by
    rw [List.any_eq_false]
    intro d hd
    simp [hvalid d hd]
  have hperm := hre (resolveIds genIds 0 docs)
  have hlen : (reorderIds (resolveIds genIds 0 docs)).length = docs.length := by
    rw [hperm.length_eq, resolveIds_length]
  have hpermF : ((initExec.failedDocIds ++
      (reorderIds (resolveIds genIds 0 docs)).filter (fun i => fail i)) :
        List String).Perm ((resolveIds genIds 0 docs).filter (fun i => fail i)) := by
    simp only [initExec, List.nil_append]
    exact hperm.filter _
  have hmain := getD_ite_some_perm _ _ hpermF
  unfold runCreate
  rw [hcol]
  simp only [hie, hany, Bool.false_eq_true, if_false]
  rw [foldl_processCompletion]
  refine ⟨_, rfl, ?_, ?_, rfl, ?_, ?_, hmain.1, ?_, ?_⟩
  · show initExec.successCount + _ = _
    simp only [initExec, Nat.zero_add]
    exact hperm.countP_eq _
  · show initExec.failureCount + _ = _
    simp only [initExec, Nat.zero_add]
    exact hperm.countP_eq _
  · show initExec.createdIds ++ _ = _
    simp [initExec]
  · show (initExec.createdIds ++ _ : List String).Perm _
    simp only [initExec, List.nil_append, if_true]
    exact hperm.filter _
  · rw [hmain.2, ← List.countP_eq_length_filter]
  · show initExec.progressTrace ++ _ = _
    simp only [initExec, List.nil_append, hlen]
    cases onProgress <;> simp

/-! ### Claims -/

/-- Claim C1: for every store state, filter list (builder state), non-empty
update payload and page size N > 0, `update` (and likewise `upsert`, selected
by `kind`) in paginated mode produces the same successCount, failureCount and
totalCount, and the same set of failedDocIds up to order, as the unbounded
mode over the same match set, for any completion orders of the write channel,
whether or not N divides the match count evenly. -/
theorem claim_C1_paginated_eq_unbounded (kind : MutationKind) (st : BuilderState)
    (payload : Payload) (store : QueryPlan → List Doc) (fail : String → Bool)
    (p : String) (N : Int) (onProgressP onProgressU : Bool)
    (reorderP reorderU : List Doc → List Doc)
    (hcol : st.collectionPath = some p)
    (hvalid : isValidUpdateData payload = true)
    (hN : 0 < N)
    (hreP : ∀ l, (reorderP l).Perm l) (hreU : ∀ l, (reorderU l).Perm l) :
    ∃ op ou : MutationOutcome,
      (runBatchMutation kind st payload (some N) onProgressP store fail reorderP).outcome
        = Except.ok op ∧
      (runBatchMutation kind st payload none onProgressU store fail reorderU).outcome
        = Except.ok ou ∧
      op.successCount = ou.successCount ∧
      op.failureCount = ou.failureCount ∧
      op.totalCount = ou.totalCount ∧
      (op.failedDocIds.getD []).Perm (ou.failedDocIds.getD []) ∧
      (op.failedDocIds = none ↔ ou.failedDocIds = none) := by
  obtain ⟨op, hop, h1, h2, h3, h4, h5, _⟩ :=
    runBatchMutation_ok_spec kind st payload (some N) onProgressP store fail reorderP
      p hcol hvalid hreP
  obtain ⟨ou, hou, g1, g2, g3, g4, g5, _⟩ :=
    runBatchMutation_ok_spec kind st payload none onProgressU store fail reorderU
      p hcol hvalid hreU
  exact ⟨op, ou, hop, hou, by rw [h1, g1], by rw [h2, g2], by rw [h3, g3],
    h4.trans g4.symm, by rw [h5, g5]⟩

/-- Concrete instantiation of claim C1: five matching documents, page size 2,
one failing document, reversed completion order in paginated mode. -/
theorem claim_C1_witness :
    stDemo.collectionPath = some "users" ∧
    isValidUpdateData payDemo = true ∧
    (0 : Int) < 2 ∧
    (∀ l : List Doc, (List.reverse l).Perm l) ∧
    (∀ l : List Doc, (id l : List Doc).Perm l) ∧
    (∃ op ou : MutationOutcome,
      (runBatchMutation .update stDemo payDemo (some 2) true storeDemo failDemo
        List.reverse).outcome = Except.ok op ∧
      (runBatchMutation .update stDemo payDemo none false storeDemo failDemo
        id).outcome = Except.ok ou ∧
      op.successCount = ou.successCount ∧
      op.failureCount = ou.failureCount ∧
      op.totalCount = ou.totalCount ∧
      (op.failedDocIds.getD []).Perm (ou.failedDocIds.getD []) ∧
      (op.failedDocIds = none ↔ ou.failedDocIds = none)) :=
  ⟨rfl, by decide, by decide, fun l => List.reverse_perm l, fun l => List.Perm.refl l,
   claim_C1_paginated_eq_unbounded .update stDemo payDemo storeDemo failDemo "users" 2
     true false List.reverse id rfl (by decide) (by decide)
     (fun l => List.reverse_perm l) (fun l => List.Perm.refl l)⟩

/-- Claim C2: every invocation of `update`/`upsert` or `create` that returns
a result satisfies successCount + failureCount = totalCount, in both modes
and for every pattern of per-document successes and failures. -/
theorem claim_C2_sum_invariant (kind : MutationKind) (st : BuilderState)
    (payload : Payload) (batchSize : Option Int) (onProgress : Bool)
    (store : QueryPlan → List Doc) (fail : String → Bool)
    (reorder : List Doc → List Doc) (docs : List CreateDocumentInput)
    (genIds : Nat → String) (reorderIds : List String → List String)
    (hre : ∀ l : List Doc, (reorder l).Perm l)
    (hreIds : ∀ l : List String, (reorderIds l).Perm l) :
    (∀ out, (runBatchMutation kind st payload batchSize onProgress store fail reorder).outcome
        = Except.ok out → out.successCount + out.failureCount = out.totalCount) ∧
    (∀ out, (runCreate st docs onProgress genIds fail reorderIds).outcome
        = Except.ok out → out.successCount + out.failureCount = out.totalCount) := by
  constructor
  · intro out hout
    rcases hcol : st.collectionPath with _ | p
    · simp [runBatchMutation, hcol] at hout
    · by_cases hval : isValidUpdateData payload = true
      · obtain ⟨o, ho, h1, h2, h3, _, _, _⟩ :=
          runBatchMutation_ok_spec kind st payload batchSize onProgress store fail reorder
            p hcol hval hre
        have hoo : o = out := by
          have := ho.symm.trans hout
          injection this
        subst hoo
        rw [h1, h2, h3]
        exact countP_not_add _ _
      · have hval2 : isValidUpdateData payload = false := by
          revert hval
          cases isValidUpdateData payload <;> simp
        simp [runBatchMutation, hcol, hval2] at hout
  · intro out hout
    rcases hcol : st.collectionPath with _ | p
    · simp [runCreate, hcol] at hout
    · rcases hdocs : docs with _ | ⟨d, rest⟩
      · subst hdocs
        simp [runCreate, hcol] at hout
      · by_cases hval : ∀ x ∈ docs, isValidUpdateData x.data = true
        · obtain ⟨o, ho, h1, h2, h3, _, _, _, _, _⟩ :=
            runCreate_ok_spec st docs onProgress genIds fail reorderIds p hcol
              (by rw [hdocs]; exact List.cons_ne_nil d rest) hval hreIds
          have hoo : o = out := by
            have := ho.symm.trans hout
            injection this
          subst hoo
          rw [h1, h2, h3, ← resolveIds_length genIds 0 docs]
          exact countP_not_add _ _
        · push_neg at hval
          obtain ⟨x, hx, hxv⟩ := hval
          have hany : docs.any (fun d => !isValidUpdateData d.data) = true := by
            rw [List.any_eq_true]
            refine ⟨x, hx, ?_⟩
            revert hxv
            cases isValidUpdateData x.data <;> simp
          have hie : docs.isEmpty = false := by
            rw [hdocs]
            rfl
          simp [runCreate, hcol, hie, hany] at hout
  
/-- Concrete instantiation of claim C2 on the five-document store and the
two-document create input. -/
theorem claim_C2_witness :
    (∀ l : List Doc, (id l : List Doc).Perm l) ∧
    (∀ l : List String, (List.reverse l).Perm l) ∧
    ((∀ out, (runBatchMutation .upsert stDemo payDemo (some 2) false storeDemo failDemo
        id).outcome = Except.ok out → out.successCount + out.failureCount = out.totalCount) ∧
     (∀ out, (runCreate stDemo createDocsAB false genDemo failDemo
        List.reverse).outcome = Except.ok out →
        out.successCount + out.failureCount = out.totalCount)) :=
  ⟨fun l => List.Perm.refl l, fun l => List.reverse_perm l,
   claim_C2_sum_invariant .upsert stDemo payDemo (some 2) false storeDemo failDemo id
     createDocsAB genDemo List.reverse
     (fun l => List.Perm.refl l) (fun l => List.reverse_perm l)⟩

/-- Claim C3: a query plan matching zero documents makes `update` and
`upsert` return the all-zero outcome without ever opening a BulkWriter
session, in both modes. -/
theorem claim_C3_zero_matches (kind : MutationKind) (st : BuilderState)
    (payload : Payload) (batchSize : Option Int) (onProgress : Bool)
    (store : QueryPlan → List Doc) (fail : String → Bool)
    (reorder : List Doc → List Doc) (p : String)
    (hcol : st.collectionPath = some p)
    (hvalid : isValidUpdateData payload = true)
    (hempty : store st.buildQuery = []) :
    (runBatchMutation kind st payload batchSize onProgress store fail reorder).outcome
      = Except.ok { successCount := 0, failureCount := 0, totalCount := 0 } ∧
    Effect.openBulkWriter ∉
      (runBatchMutation kind st payload batchSize onProgress store fail reorder).effects := by
  rcases batchSize with _ | n
  · constructor <;> simp [runBatchMutation, hcol, hvalid, hempty, runUnbounded]
  · by_cases hn : 0 < n <;> constructor <;>
      simp [runBatchMutation, hcol, hvalid, hempty, runUnbounded, runPaginated, hn]

/-- Concrete instantiation of claim C3 on an empty store, paginated mode. -/
theorem claim_C3_witness :
    stDemo.collectionPath = some "users" ∧
    isValidUpdateData payDemo = true ∧
    storeEmpty stDemo.buildQuery = [] ∧
    ((runBatchMutation .update stDemo payDemo (some 3) false storeEmpty failDemo id).outcome
      = Except.ok { successCount := 0, failureCount := 0, totalCount := 0 } ∧
     Effect.openBulkWriter ∉
      (runBatchMutation .update stDemo payDemo (some 3) false storeEmpty failDemo id).effects) :=
  ⟨rfl, by decide, rfl,
   claim_C3_zero_matches .update stDemo payDemo (some 3) false storeEmpty failDemo id
     "users" rfl (by decide) rfl⟩

/-- Counterexample to claim C4 as stated: with `batchSize = 0` the invocation
is not rejected — `options.batchSize && options.batchSize > 0` is falsy, so
the call silently runs in unbounded mode, fetches the match set and issues
mutations. -/
theorem claim_C4_counterexample :
    (runBatchMutation .update stDemo payDemo (some 0) false storeDemo failDemo id).outcome
      = Except.ok { successCount := 4, failureCount := 1, totalCount := 5,
                    failedDocIds := some ["d2"] } ∧
    Effect.fetch stDemo.buildQuery none ∈
      (runBatchMutation .update stDemo payDemo (some 0) false storeDemo failDemo id).effects ∧
    Effect.enqueueUpdate "d1" ∈
      (runBatchMutation .update stDemo payDemo (some 0) false storeDemo failDemo id).effects := by
  decide

/-- Claim C4 (amended): a zero or negative `batchSize` is not rejected; the
invocation behaves exactly as if `batchSize` were absent, running the
unbounded mode including its query and mutations. -/
theorem claim_C4_amended (kind : MutationKind) (st : BuilderState)
    (payload : Payload) (n : Int) (onProgress : Bool)
    (store : QueryPlan → List Doc) (fail : String → Bool)
    (reorder : List Doc → List Doc) (hn : n ≤ 0) :
    runBatchMutation kind st payload (some n) onProgress store fail reorder =
      runBatchMutation kind st payload none onProgress store fail reorder := by
  have hn2 : ¬0 < n := by omega
  unfold runBatchMutation
  cases st.collectionPath <;> simp [hn2]

/-- Concrete instantiation of the amended claim C4 at `batchSize = -3`. -/
theorem claim_C4_witness :
    (-3 : Int) ≤ 0 ∧
    runBatchMutation .upsert stDemo payDemo (some (-3)) false storeDemo failDemo id =
      runBatchMutation .upsert stDemo payDemo none false storeDemo failDemo id :=
  ⟨by decide,
   claim_C4_amended .upsert stDemo payDemo (-3) false storeDemo failDemo id (by decide)⟩

/-- Counterexample to claim C5 as stated: `createdIds` records ids strictly
in write-completion order, so two explicit-id documents whose completions
arrive in reverse order appear reversed, not in input order. -/
theorem claim_C5_counterexample :
    (runCreate stDemo createDocsAB false genDemo (fun _ => false) List.reverse).outcome
      = Except.ok { successCount := 2, failureCount := 0, totalCount := 2,
                    createdIds := ["b", "a"] } ∧
    (["b", "a"] : List String) ≠ ["a", "b"] := by
  decide

/-- Claim C5 (amended): `createdIds` lists the ids of successfully created
documents in write-completion order, explicit and auto-generated ids alike;
in particular, for one explicit-id document and one auto-id document, both
succeeding, `createdIds` is a permutation of the explicit id plus the one
generated id and hence has length 2. -/
theorem claim_C5_amended (st : BuilderState) (docs : List CreateDocumentInput)
    (onProgress : Bool) (genIds : Nat → String) (fail : String → Bool)
    (reorderIds : List String → List String) (p : String)
    (hcol : st.collectionPath = some p) (hne : docs ≠ [])
    (hvalid : ∀ d ∈ docs, isValidUpdateData d.data = true)
    (hre : ∀ l, (reorderIds l).Perm l) :
    ∃ out, (runCreate st docs onProgress genIds fail reorderIds).outcome = Except.ok out ∧
      out.createdIds = (reorderIds (resolveIds genIds 0 docs)).filter (fun i => !fail i) ∧
      out.createdIds.Perm ((resolveIds genIds 0 docs).filter (fun i => !fail i)) ∧
      (∀ d1 d2 eid, docs = [d1, d2] → d1.id = some eid → d2.id = none →
        (∀ i, fail i = false) → out.createdIds.Perm [eid, genIds 0]) := by
  obtain ⟨out, hout, _, _, _, h5, h6, _, _, _⟩ :=
    runCreate_ok_spec st docs onProgress genIds fail reorderIds p hcol hne hvalid hre
  refine ⟨out, hout, h5, h6, ?_⟩
  intro d1 d2 eid hdocs hid1 hid2 hfail
  subst hdocs
  have hres : resolveIds genIds 0 [d1, d2] = [eid, genIds 0] := by
    simp [resolveIds, hid1, hid2]
  have hfilter : (resolveIds genIds 0 [d1, d2]).filter (fun i => !fail i) =
      [eid, genIds 0] := by
    rw [hres]
    simp [hfail]
  rw [← hfilter]
  exact h6

/-- Concrete instantiation of the amended claim C5: one explicit id, one
auto-generated id, reversed completion order. -/
theorem claim_C5_witness :
    stDemo.collectionPath = some "users" ∧
    createDocsXAuto ≠ [] ∧
    (∀ d ∈ createDocsXAuto, isValidUpdateData d.data = true) ∧
    (∀ l : List String, (List.reverse l).Perm l) ∧
    (∃ out, (runCreate stDemo createDocsXAuto false genDemo (fun _ => false)
        List.reverse).outcome = Except.ok out ∧
      out.createdIds = (List.reverse (resolveIds genDemo 0 createDocsXAuto)).filter
        (fun i => !(fun _ => false) i) ∧
      out.createdIds.Perm ((resolveIds genDemo 0 createDocsXAuto).filter
        (fun i => !(fun _ => false) i)) ∧
      (∀ d1 d2 eid, createDocsXAuto = [d1, d2] → d1.id = some eid → d2.id = none →
        (∀ i : String, (fun _ => false) i = false) →
        out.createdIds.Perm [eid, genDemo 0])) :=
  ⟨rfl, by decide, by decide, fun l => List.reverse_perm l,
   claim_C5_amended stDemo createDocsXAuto false genDemo (fun _ => false)
     List.reverse "users" rfl (by decide) (by decide) (fun l => List.reverse_perm l)⟩

/-- Claim C7: `preview` issues only reads (no BulkWriter session, no write),
and each returned sample's `after` is the shallow merge of that sample's
`before` with the patch: patch keys win, all other keys of `before` keep
their values. -/
theorem claim_C7_preview_merge (st : BuilderState) (fields : DocData)
    (store : QueryPlan → List Doc) (p : String)
    (hcol : st.collectionPath = some p) (hne : fields ≠ []) :
    (∀ e ∈ (runPreview st (Payload.objP fields) store).effects,
      e.isWriteEffect = false) ∧
    ∃ out, (runPreview st (Payload.objP fields) store).outcome = Except.ok out ∧
      ∀ s ∈ out.samples, ∀ k,
        lookupField s.after k = (lookupField fields k).or (lookupField s.before k) := by
  have hval : isValidUpdateData (Payload.objP fields) = true := by
    simp [isValidUpdateData, List.isEmpty_iff, hne]
  constructor
  · intro e he
    simp only [runPreview, hcol, hval, Bool.true_eq_false, if_false,
      List.mem_singleton] at he
    subst he
    rfl
  · have hrun : (runPreview st (Payload.objP fields) store).outcome = Except.ok
        { affectedCount := (store st.buildQuery).length
          samples := ((store st.buildQuery).take 10).map (fun d =>
            { id := d.id, before := d.data, after := mergeUpdateData d.data fields })
          affectedFields := getAffectedFields fields } := by
      simp only [runPreview, hcol, hval, Bool.true_eq_false, if_false]
      rfl
    refine ⟨_, hrun, ?_⟩
    intro s hs k
    obtain ⟨d, hd, rfl⟩ := List.mem_map.mp hs
    exact lookupField_mergeUpdateData d.data fields k

/-- Concrete instantiation of claim C7 on the five-document store. -/
theorem claim_C7_witness :
    stDemo.collectionPath = some "users" ∧
    ([("status", FSValue.str "archived")] : DocData) ≠ [] ∧
    ((∀ e ∈ (runPreview stDemo (Payload.objP [("status", FSValue.str "archived")])
        storeDemo).effects, e.isWriteEffect = false) ∧
     ∃ out, (runPreview stDemo (Payload.objP [("status", FSValue.str "archived")])
        storeDemo).outcome = Except.ok out ∧
      ∀ s ∈ out.samples, ∀ k,
        lookupField s.after k =
          (lookupField [("status", FSValue.str "archived")] k).or
            (lookupField s.before k)) :=
  ⟨rfl, by decide,
   claim_C7_preview_merge stDemo [("status", FSValue.str "archived")] storeDemo
     "users" rfl (by decide)⟩

/-- Claim C6: with a progress callback attached, the reported percentage is
non-decreasing across successive invocations; when the planned total is
positive the final callback reports current = total at 100 percent, and a
zero total yields no callback at all — for `update`/`upsert` in both modes
and for `create`. -/
theorem claim_C6_progress (kind : MutationKind) (st : BuilderState)
    (payload : Payload) (batchSize : Option Int)
    (store : QueryPlan → List Doc) (fail : String → Bool)
    (reorder : List Doc → List Doc) (docs : List CreateDocumentInput)
    (genIds : Nat → String) (reorderIds : List String → List String)
    (hre : ∀ l : List Doc, (reorder l).Perm l)
    (hreIds : ∀ l : List String, (reorderIds l).Perm l) :
    (∀ out, (runBatchMutation kind st payload batchSize true store fail reorder).outcome
        = Except.ok out →
      ProgressOk (runBatchMutation kind st payload batchSize true store fail reorder).progress
        out.totalCount) ∧
    (∀ out, (runCreate st docs true genIds fail reorderIds).outcome = Except.ok out →
      ProgressOk (runCreate st docs true genIds fail reorderIds).progress out.totalCount) := by
  constructor
  · intro out hout
    rcases hcol : st.collectionPath with _ | p
    · simp [runBatchMutation, hcol] at hout
    · by_cases hval : isValidUpdateData payload = true
      · obtain ⟨o, ho, _, _, h3, _, _, hprog⟩ :=
          runBatchMutation_ok_spec kind st payload batchSize true store fail reorder
            p hcol hval hre
        have hoo : o = out := by
          have := ho.symm.trans hout
          injection this
        subst hoo
        rw [hprog, h3, if_pos rfl]
        exact progress_list_shape_ok _
      · have hval2 : isValidUpdateData payload = false := by
          revert hval
          cases isValidUpdateData payload <;> simp
        simp [runBatchMutation, hcol, hval2] at hout
  · intro out hout
    rcases hcol : st.collectionPath with _ | p
    · simp [runCreate, hcol] at hout
    · by_cases hdocs : docs = []
      · subst hdocs
        simp [runCreate, hcol] at hout
      · by_cases hval : ∀ x ∈ docs, isValidUpdateData x.data = true
        · obtain ⟨o, ho, _, _, h3, _, _, _, _, hprog⟩ :=
            runCreate_ok_spec st docs true genIds fail reorderIds p hcol hdocs hval hreIds
          have hoo : o = out := by
            have := ho.symm.trans hout
            injection this
          subst hoo
          rw [hprog, h3, if_pos rfl]
          exact progress_list_shape_ok _
        · push_neg at hval
          obtain ⟨x, hx, hxv⟩ := hval
          have hany : docs.any (fun d => !isValidUpdateData d.data) = true := by
            rw [List.any_eq_true]
            refine ⟨x, hx, ?_⟩
            revert hxv
            cases isValidUpdateData x.data <;> simp
          have hie : docs.isEmpty = false := by
            cases docs with
            | nil => exact absurd rfl hdocs
            | cons a t => rfl
          simp [runCreate, hcol, hie, hany] at hout

/-- Concrete instantiation of claim C6 on the five-document paginated run and
the two-document create. -/
theorem claim_C6_witness :
    (∀ l : List Doc, (id l : List Doc).Perm l) ∧
    (∀ l : List String, (id l : List String).Perm l) ∧
    ((∀ out, (runBatchMutation .update stDemo payDemo (some 2) true storeDemo failDemo
        id).outcome = Except.ok out →
      ProgressOk (runBatchMutation .update stDemo payDemo (some 2) true storeDemo failDemo
        id).progress out.totalCount) ∧
     (∀ out, (runCreate stDemo createDocsAB true genDemo failDemo id).outcome
        = Except.ok out →
      ProgressOk (runCreate stDemo createDocsAB true genDemo failDemo id).progress
        out.totalCount)) :=
  ⟨fun l => List.Perm.refl l, fun l => List.Perm.refl l,
   claim_C6_progress .update stDemo payDemo (some 2) storeDemo failDemo id
     createDocsAB genDemo id (fun l => List.Perm.refl l) (fun l => List.Perm.refl l)⟩

/-- Claim C8: configuration errors — no collection selected, empty or invalid
mutation payload, empty create array, invalid document data — are raised
synchronously as thrown errors with no store effect at all: no query, no
BulkWriter session, no mutation, no progress callback. -/
theorem claim_C8_config_errors (kind : MutationKind) (st : BuilderState)
    (payload : Payload) (batchSize : Option Int) (onProgress : Bool)
    (store : QueryPlan → List Doc) (fail : String → Bool)
    (reorder : List Doc → List Doc) (docs : List CreateDocumentInput)
    (genIds : Nat → String) (reorderIds : List String → List String) :
    (st.collectionPath = none →
      runBatchMutation kind st payload batchSize onProgress store fail reorder =
        { outcome := Except.error "Collection path is required. Call .collection() first." } ∧
      runCreate st docs onProgress genIds fail reorderIds =
        { outcome := Except.error "Collection path is required. Call .collection() first." } ∧
      runPreview st payload store =
        { outcome := Except.error "Collection path is required. Call .collection() first." }) ∧
    (∀ p, st.collectionPath = some p → isValidUpdateData payload = false →
      runBatchMutation kind st payload batchSize onProgress store fail reorder =
        { outcome := Except.error "Update data must be a non-empty object" } ∧
      runPreview st payload store =
        { outcome := Except.error "Update data must be a non-empty object" }) ∧
    (∀ p, st.collectionPath = some p → docs = [] →
      runCreate st docs onProgress genIds fail reorderIds =
        { outcome := Except.error "Documents array must be non-empty" }) ∧
    (∀ p d, st.collectionPath = some p → d ∈ docs →
      isValidUpdateData d.data = false →
      runCreate st docs onProgress genIds fail reorderIds =
        { outcome := Except.error "Each document must have valid data" }) := by
  refine ⟨?_, ?_, ?_, ?_⟩
  · intro h
    refine ⟨?_, ?_, ?_⟩ <;> simp [runBatchMutation, runCreate, runPreview, h]
  · intro p hcol hinv
    constructor <;> simp [runBatchMutation, runPreview, hcol, hinv]
  · intro p hcol hdocs
    subst hdocs
    simp [runCreate, hcol]
  · intro p d hcol hd hinv
    have hie : docs.isEmpty = false := by
      cases docs with
      | nil => exact absurd hd (List.not_mem_nil d)
      | cons a t => rfl
    have hany : docs.any (fun x => !isValidUpdateData x.data) = true := by
      rw [List.any_eq_true]
      exact ⟨d, hd, by simp [hinv]⟩
    simp [runCreate, hcol, hie, hany]

/-- Concrete instantiation of claim C8 on a fresh, unconfigured builder. -/
theorem claim_C8_witness :
    (BuilderState.mk none []).collectionPath = none ∧
    (runBatchMutation .update (BuilderState.mk none []) payDemo none false storeDemo
        failDemo id =
      { outcome := Except.error "Collection path is required. Call .collection() first." } ∧
     runCreate (BuilderState.mk none []) createDocsAB false genDemo failDemo id =
      { outcome := Except.error "Collection path is required. Call .collection() first." } ∧
     runPreview (BuilderState.mk none []) payDemo storeDemo =
      { outcome := Except.error "Collection path is required. Call .collection() first." }) :=
  ⟨rfl,
   (claim_C8_config_errors .update (BuilderState.mk none []) payDemo none false storeDemo
     failDemo id createDocsAB genDemo id).1 rfl⟩

theorem runUnbounded_effects_plans (kind : MutationKind) (plan : QueryPlan)
    (onProgress : Bool) (ms : List Doc) (fail : String → Bool)
    (reorder : List Doc → List Doc) :
    ∀ e ∈ (runUnbounded kind plan onProgress ms fail reorder).effects,
      ∀ pl, e.queryPlan? = some pl → pl = plan := by
  intro e he pl hpl
  unfold runUnbounded at he
  by_cases hms : ms.length = 0
  · rw [if_pos hms] at he
    simp only [List.mem_singleton] at he
    subst he
    simp only [Effect.queryPlan?, Option.some.injEq] at hpl
    exact hpl.symm
  · rw [if_neg hms] at he
    simp only [List.cons_append, List.nil_append, List.mem_cons, List.mem_map] at he
    rcases he with rfl | rfl | ⟨d, hd, rfl⟩
    · simp only [Effect.queryPlan?, Option.some.injEq] at hpl
      exact hpl.symm
    · simp [Effect.queryPlan?] at hpl
    · cases kind <;> simp [enqueueEffect, Effect.queryPlan?] at hpl

theorem runPaginated_effects_plans (kind : MutationKind) (plan : QueryPlan)
    (pageSize : Nat) (onProgress : Bool) (ms : List Doc) (fail : String → Bool)
    (reorder : List Doc → List Doc) :
    ∀ e ∈ (runPaginated kind plan pageSize onProgress ms fail reorder).effects,
      ∀ pl, e.queryPlan? = some pl → pl = plan := by
  intro e he pl hpl
  unfold runPaginated at he
  by_cases hms : ms.length = 0
  · rw [if_pos hms] at he
    simp only [List.mem_singleton] at he
    subst he
    simp only [Effect.queryPlan?, Option.some.injEq] at hpl
    exact hpl.symm
  · rw [if_neg hms] at he
    have he2 : e ∈ ([Effect.countQuery plan] ++
        (pages pageSize ms).flatMap (fun pg =>
          Effect.fetch plan (some pageSize) :: Effect.openBulkWriter ::
            pg.map (fun d => enqueueEffect kind d.id)) ++
        (if ms.length % pageSize = 0 then [Effect.fetch plan (some pageSize)] else [])) := he
    rcases List.mem_append.mp he2 with h | h
    · rcases List.mem_append.mp h with h | h
      · simp only [List.mem_singleton] at h
        subst h
        simp only [Effect.queryPlan?, Option.some.injEq] at hpl
        exact hpl.symm
      · obtain ⟨pg, hpg, h⟩ := List.mem_flatMap.mp h
        rcases List.mem_cons.mp h with rfl | h
        · simp only [Effect.queryPlan?, Option.some.injEq] at hpl
          exact hpl.symm
        · rcases List.mem_cons.mp h with rfl | h
          · simp [Effect.queryPlan?] at hpl
          · obtain ⟨d, hd, rfl⟩ := List.mem_map.mp h
            cases kind <;> simp [enqueueEffect, Effect.queryPlan?] at hpl
    · by_cases hc : ms.length % pageSize = 0
      · rw [if_pos hc] at h
        simp only [List.mem_singleton] at h
        subst h
        simp only [Effect.queryPlan?, Option.some.injEq] at hpl
        exact hpl.symm
      · rw [if_neg hc] at h
        exact absurd h (List.not_mem_nil e)

/-- Claim C10: `collection(path)` resets the accumulated conditions,
`where(field, op, value)` appends one condition, and an operation reads the
instance's current conditions through `buildQuery` without modifying them —
every query the operation issues is against `buildQuery` of the same builder
state, so conditions persist across operations until `collection()` is
called again. -/
theorem claim_C10_builder_state (st : BuilderState) (path f o : String)
    (v : FSValue) (kind : MutationKind) (payload : Payload)
    (batchSize : Option Int) (onProgress : Bool) (store : QueryPlan → List Doc)
    (fail : String → Bool) (reorder : List Doc → List Doc) :
    (st.collection path).conditions = [] ∧
    (st.whereCond f o v).conditions = st.conditions ++ [⟨f, o, v⟩] ∧
    (st.collection path).buildQuery = { collection := path, conditions := [] } ∧
    (∀ e ∈ (runBatchMutation kind st payload batchSize onProgress store fail reorder).effects,
      ∀ pl, e.queryPlan? = some pl → pl = st.buildQuery) := by
  refine ⟨rfl, rfl, rfl, ?_⟩
  intro e he pl hpl
  rcases hcol : st.collectionPath with _ | p
  · simp [runBatchMutation, hcol] at he
  · by_cases hval : isValidUpdateData payload = true
    · rcases batchSize with _ | n
      · have he2 : e ∈ (runUnbounded kind st.buildQuery onProgress
            (store st.buildQuery) fail reorder).effects := by
          simpa [runBatchMutation, hcol, hval] using he
        exact runUnbounded_effects_plans kind st.buildQuery onProgress
          (store st.buildQuery) fail reorder e he2 pl hpl
      · by_cases hn : 0 < n
        · have he2 : e ∈ (runPaginated kind st.buildQuery n.toNat onProgress
              (store st.buildQuery) fail reorder).effects := by
            simpa [runBatchMutation, hcol, hval, hn] using he
          exact runPaginated_effects_plans kind st.buildQuery n.toNat onProgress
            (store st.buildQuery) fail reorder e he2 pl hpl
        · have he2 : e ∈ (runUnbounded kind st.buildQuery onProgress
              (store st.buildQuery) fail reorder).effects := by
            simpa [runBatchMutation, hcol, hval, hn] using he
          exact runUnbounded_effects_plans kind st.buildQuery onProgress
            (store st.buildQuery) fail reorder e he2 pl hpl
    · have hval2 : isValidUpdateData payload = false := by
        revert hval
        cases isValidUpdateData payload <;> simp
      simp [runBatchMutation, hcol, hval2] at he

/-- Concrete instantiation of claim C10 (the statement has no hypotheses;
this evaluates it on concrete arguments). -/
theorem claim_C10_witness :
    ((stDemo.collection "orders").conditions = [] ∧
     (stDemo.whereCond "status" "==" (FSValue.str "active")).conditions =
       stDemo.conditions ++ [⟨"status", "==", FSValue.str "active"⟩] ∧
     (stDemo.collection "orders").buildQuery =
       { collection := "orders", conditions := [] } ∧
     (∀ e ∈ (runBatchMutation .update stDemo payDemo (some 2) false storeDemo failDemo
        id).effects, ∀ pl, e.queryPlan? = some pl → pl = stDemo.buildQuery)) :=
  claim_C10_builder_state stDemo "orders" "status" "==" (FSValue.str "active")
    .update payDemo (some 2) false storeDemo failDemo id

/-- Claim C9: for an `OperationLog` with two entries, one success and one
failure (its summary computed by the collector from the entries, the failure
carrying a non-empty error message and the success none), the rendered
report contains the lines "Total: 2", "Success: 1" and "Failure: 1",
contains the two `timestamp [SUCCESS|FAILURE] documentId` entry lines in
recorded order, and places the indented `Error:` line directly under the
failure entry's line; the report string is the newline join of these lines. -/
theorem claim_C9_log_rendering (log : OperationLog) (e1 e2 : LogEntry)
    (hent : log.entries = [e1, e2])
    (hsum : log.summary = collectorSummary log.entries)
    (hcnt : (log.entries.filter (fun e => e.status == LogStatus.success)).length = 1)
    (herr : ∀ e ∈ log.entries,
      (e.status = LogStatus.failure →
        e.error = some (e.error.getD "") ∧ (e.error.getD "").isEmpty = false) ∧
      (e.status = LogStatus.success → e.error = none)) :
    "Total: 2" ∈ formatOperationLogLines log ∧
    "Success: 1" ∈ formatOperationLogLines log ∧
    "Failure: 1" ∈ formatOperationLogLines log ∧
    List.Sublist [entryLine e1, entryLine e2] (formatOperationLogLines log) ∧
    (∀ e ∈ log.entries, e.status = LogStatus.failure →
      ∃ pre post, formatOperationLogLines log =
        pre ++ entryLine e :: ("  Error: " ++ e.error.getD "") :: post) ∧
    formatOperationLog log = String.intercalate "\n" (formatOperationLogLines log) := by
  have hmem1 : e1 ∈ log.entries := by
    rw [hent]
    exact List.mem_cons_self _ _
  have hmem2 : e2 ∈ log.entries := by
    rw [hent]
    simp
  cases hs1 : e1.status with
  | success =>
    cases hs2 : e2.status with
    | success =>
      rw [hent] at hcnt
      simp [hs1, hs2] at hcnt
    | failure =>
      have he1 : e1.error = none := (herr e1 hmem1).2 hs1
      obtain ⟨m, hm, hmne⟩ :
          ∃ m, e2.error = some m ∧ m.isEmpty = false :=
        ⟨e2.error.getD "", ((herr e2 hmem2).1 hs2).1, ((herr e2 hmem2).1 hs2).2⟩
      have hgd : e2.error.getD "" = m := by
        rw [hm]
        rfl
      have hsum2 : log.summary = { totalCount := 2, successCount := 1, failureCount := 1 } := by
        rw [hsum, hent]
        simp [collectorSummary, hs1, hs2]
      have hee1 : entryLines e1 = [entryLine e1] := by
        simp [entryLines, he1]
      have hee2 : entryLines e2 = [entryLine e2, "  Error: " ++ m] := by
        simp [entryLines, hm, hmne]
      have hdet : detailsBlock log.entries =
          [separatorLine, "DETAILS", separatorLine, "", entryLine e1, entryLine e2,
            "  Error: " ++ m] := by
        rw [hent]
        simp [detailsBlock, hee1, hee2]
      have hL : formatOperationLogLines log =
          headerBlock log ++ conditionsBlock log.conditions ++
            updateDataBlock log.updateData ++
            summaryBlock { totalCount := 2, successCount := 1, failureCount := 1 } ++
            [separatorLine, "DETAILS", separatorLine, "", entryLine e1, entryLine e2,
              "  Error: " ++ m] ++ footerBlock := by
        unfold formatOperationLogLines
        rw [hsum2, hdet]
      refine ⟨?_, ?_, ?_, ?_, ?_, rfl⟩
      · rw [hL]
        exact List.mem_append_left _ (List.mem_append_left _
          (List.mem_append_right _ (by decide)))
      · rw [hL]
        exact List.mem_append_left _ (List.mem_append_left _
          (List.mem_append_right _ (by decide)))
      · rw [hL]
        exact List.mem_append_left _ (List.mem_append_left _
          (List.mem_append_right _ (by decide)))
      · rw [hL]
        have hsubD : List.Sublist [entryLine e1, entryLine e2]
            [separatorLine, "DETAILS", separatorLine, "", entryLine e1, entryLine e2,
              "  Error: " ++ m] :=
          ((((((List.nil_sublist _).cons₂ _).cons₂ _).cons _).cons _).cons _).cons _
        exact (hsubD.trans (List.sublist_append_right _ _)).trans
          (List.sublist_append_left _ _)
      · intro e he hef
        rw [hent] at he
        rcases List.mem_cons.mp he with rfl | he
        · rw [hs1] at hef
          exact absurd hef (by simp)
        · rcases List.mem_cons.mp he with rfl | he
          · rw [hgd]
            refine ⟨headerBlock log ++ conditionsBlock log.conditions ++
              updateDataBlock log.updateData ++
              summaryBlock { totalCount := 2, successCount := 1, failureCount := 1 } ++
              [separatorLine, "DETAILS", separatorLine, "", entryLine e1],
              footerBlock, ?_⟩
            rw [hL]
            simp [List.append_assoc]
          · exact absurd he (List.not_mem_nil e)
  | failure =>
    cases hs2 : e2.status with
    | failure =>
      rw [hent] at hcnt
      simp [hs1, hs2] at hcnt
    | success =>
      have he2 : e2.error = none := (herr e2 hmem2).2 hs2
      obtain ⟨m, hm, hmne⟩ :
          ∃ m, e1.error = some m ∧ m.isEmpty = false :=
        ⟨e1.error.getD "", ((herr e1 hmem1).1 hs1).1, ((herr e1 hmem1).1 hs1).2⟩
      have hgd : e1.error.getD "" = m := by
        rw [hm]
        rfl
      have hsum2 : log.summary = { totalCount := 2, successCount := 1, failureCount := 1 } := by
        rw [hsum, hent]
        simp [collectorSummary, hs1, hs2]
      have hee1 : entryLines e1 = [entryLine e1, "  Error: " ++ m] := by
        simp [entryLines, hm, hmne]
      have hee2 : entryLines e2 = [entryLine e2] := by
        simp [entryLines, he2]
      have hdet : detailsBlock log.entries =
          [separatorLine, "DETAILS", separatorLine, "", entryLine e1, "  Error: " ++ m,
            entryLine e2] := by
        rw [hent]
        simp [detailsBlock, hee1, hee2]
      have hL : formatOperationLogLines log =
          headerBlock log ++ conditionsBlock log.conditions ++
            updateDataBlock log.updateData ++
            summaryBlock { totalCount := 2, successCount := 1, failureCount := 1 } ++
            [separatorLine, "DETAILS", separatorLine, "", entryLine e1, "  Error: " ++ m,
              entryLine e2] ++ footerBlock := by
        unfold formatOperationLogLines
        rw [hsum2, hdet]
      refine ⟨?_, ?_, ?_, ?_, ?_, rfl⟩
      · rw [hL]
        exact List.mem_append_left _ (List.mem_append_left _
          (List.mem_append_right _ (by decide)))
      · rw [hL]
        exact List.mem_append_left _ (List.mem_append_left _
          (List.mem_append_right _ (by decide)))
      · rw [hL]
        exact List.mem_append_left _ (List.mem_append_left _
          (List.mem_append_right _ (by decide)))
      · rw [hL]
        have hsubD : List.Sublist [entryLine e1, entryLine e2]
            [separatorLine, "DETAILS", separatorLine, "", entryLine e1, "  Error: " ++ m,
              entryLine e2] :=
          (((((((List.nil_sublist _).cons₂ _).cons _).cons₂ _).cons _).cons _).cons _).cons _
        exact (hsubD.trans (List.sublist_append_right _ _)).trans
          (List.sublist_append_left _ _)
      · intro e he hef
        rw [hent] at he
        rcases List.mem_cons.mp he with rfl | he
        · rw [hgd]
          refine ⟨headerBlock log ++ conditionsBlock log.conditions ++
            updateDataBlock log.updateData ++
            summaryBlock { totalCount := 2, successCount := 1, failureCount := 1 } ++
            [separatorLine, "DETAILS", separatorLine, ""],
            entryLine e2 :: footerBlock, ?_⟩
          rw [hL]
          simp [List.append_assoc]
        · rcases List.mem_cons.mp he with rfl | he
          · rw [hs2] at hef
            exact absurd hef (by simp)
          · exact absurd he (List.not_mem_nil e)

/-- Concrete instantiation of claim C9 on the synthetic two-entry log. -/
theorem claim_C9_witness :
    logDemo.entries = [entryDemo1, entryDemo2] ∧
    logDemo.summary = collectorSummary logDemo.entries ∧
    (logDemo.entries.filter (fun e => e.status == LogStatus.success)).length = 1 ∧
    (∀ e ∈ logDemo.entries,
      (e.status = LogStatus.failure →
        e.error = some (e.error.getD "") ∧ (e.error.getD "").isEmpty = false) ∧
      (e.status = LogStatus.success → e.error = none)) ∧
    ("Total: 2" ∈ formatOperationLogLines logDemo ∧
     "Success: 1" ∈ formatOperationLogLines logDemo ∧
     "Failure: 1" ∈ formatOperationLogLines logDemo ∧
     List.Sublist [entryLine entryDemo1, entryLine entryDemo2]
       (formatOperationLogLines logDemo) ∧
     (∀ e ∈ logDemo.entries, e.status = LogStatus.failure →
       ∃ pre post, formatOperationLogLines logDemo =
         pre ++ entryLine e :: ("  Error: " ++ e.error.getD "") :: post) ∧
     formatOperationLog logDemo = String.intercalate "\n" (formatOperationLogLines logDemo)) :=
  ⟨rfl, rfl, by decide, by decide,
   claim_C9_log_rendering logDemo entryDemo1 entryDemo2 rfl rfl (by decide) (by decide)⟩

end FirestoreBatch
